import Mathlib

/-!
Verification of the multi-token-prediction (MTP) training notebook
(zz_experiments.ipynb) of the llama2.c MTP repository.

The notebook is the only source file.  Its helper modules
(tinystories.py with Task.iter_batches, model.py with Transformer and
ModelArgs, export.py with model_export) are not part of the sources, so
the definitions concerning them are modelled from the specification and
cross-checked against the concrete tensor values recorded in the
notebook outputs.  The training loop itself (gradient accumulation,
DDP bookkeeping, evaluation, checkpointing, termination) is embedded
directly from the notebook code.
-/

namespace MTP

/-! ## Multi-token-prediction target windowing (claim C1) -/

/-- Modelled from the spec: Task.iter_batches (tinystories.py is not
among the sources) constructs, from each input token sequence of
length L, a future-token target tensor of shape (L - n, n) where head
k at position t receives the token at input position t + 1 + k: the
input stream shifted forward by k + 1 positions, offset per head.
Out-of-range reads never occur for t < L - n and k < n; getD supplies
a default of 0 that is never used there. -/
def iterBatchTargets (xb : List Nat) (n : Nat) : List (List Nat) :=
  (List.range (xb.length - n)).map fun t =>
    (List.range n).map fun k => xb.getD (t + 1 + k) 0

/-- The batched target tensor Y: one windowed target block per batch row. -/
def iterBatchesY (X : List (List Nat)) (n : Nat) : List (List (List Nat)) :=
  X.map fun xb => iterBatchTargets xb n

/-- The input token sequence X recorded in the notebook output
(batch size 1, max_seq_len 30). -/
def notebookX : List Nat :=
  [322, 274, 566, 29881, 280, 1213, 13, 29924, 290, 322,
   270, 328, 3939, 278, 14064, 322, 298, 688, 3192, 365,
   2354, 322, 5918, 29889, 2688, 20654, 278, 11203, 322, 278]

/-- The target tensor Y recorded in the notebook output
(shape (26, 4) for the single batch row, num_future_tokens = 4). -/
def notebookY : List (List Nat) :=
  [[274, 566, 29881, 280],
   [566, 29881, 280, 1213],
   [29881, 280, 1213, 13],
   [280, 1213, 13, 29924],
   [1213, 13, 29924, 290],
   [13, 29924, 290, 322],
   [29924, 290, 322, 270],
   [290, 322, 270, 328],
   [322, 270, 328, 3939],
   [270, 328, 3939, 278],
   [328, 3939, 278, 14064],
   [3939, 278, 14064, 322],
   [278, 14064, 322, 298],
   [14064, 322, 298, 688],
   [322, 298, 688, 3192],
   [298, 688, 3192, 365],
   [688, 3192, 365, 2354],
   [3192, 365, 2354, 322],
   [365, 2354, 322, 5918],
   [2354, 322, 5918, 29889],
   [322, 5918, 29889, 2688],
   [5918, 29889, 2688, 20654],
   [29889, 2688, 20654, 278],
   [2688, 20654, 278, 11203],
   [20654, 278, 11203, 322],
   [278, 11203, 322, 278]]

/-- The modelled windowing reproduces exactly the target tensor printed
by the notebook for the recorded input batch, grounding the
spec-modelled definition in the observed behaviour of the code. -/
theorem iterBatchesY_matches_notebook :
    iterBatchesY [notebookX] 4 = [notebookY] := by decide

theorem iterBatchTargets_length (xb : List Nat) (n : Nat) :
    (iterBatchTargets xb n).length = xb.length - n := by
  simp [iterBatchTargets]

theorem iterBatchTargets_getD (xb : List Nat) (n t : Nat)
    (ht : t < xb.length - n) :
    (iterBatchTargets xb n).getD t [] =
      (List.range n).map fun k => xb.getD (t + 1 + k) 0 := by
  have hlen : t < (iterBatchTargets xb n).length := by
    simpa [iterBatchTargets_length] using ht
  rw [List.getD_eq_getElem _ _ hlen]
  simp [iterBatchTargets]

/-- Claim C1: for every batch X whose rows all have length L and every
number of future tokens n with 1 <= n < L, the target tensor Y =
iterBatchesY X n has shape (batch, L - n, n), and Y[b][t][k] =
X[b][t + 1 + k] for all in-range b, t, k: head k predicts the input
stream shifted forward by k + 1 positions. -/
theorem mtp_target_windowing (X : List (List Nat)) (L n b t k : Nat)
    (hL : ∀ xb ∈ X, xb.length = L) (_hn1 : 1 ≤ n) (hnL : n < L)
    (hb : b < X.length) (ht : t < L - n) (hk : k < n) :
    (iterBatchesY X n).length = X.length ∧
    ((iterBatchesY X n).getD b []).length = L - n ∧
    (((iterBatchesY X n).getD b []).getD t []).length = n ∧
    (((iterBatchesY X n).getD b []).getD t []).getD k 0 =
      (X.getD b []).getD (t + 1 + k) 0 := by
  have hbY : b < (iterBatchesY X n).length := by simpa [iterBatchesY] using hb
  have hrow : (iterBatchesY X n).getD b [] = iterBatchTargets (X.getD b []) n := by
    rw [List.getD_eq_getElem _ _ hbY, List.getD_eq_getElem _ _ hb]
    simp [iterBatchesY]
  have hxlen : (X.getD b []).length = L := by
    rw [List.getD_eq_getElem _ _ hb]
    exact hL _ (X.getElem_mem hb)
  have htx : t < (X.getD b []).length - n := by omega
  refine ⟨by simp [iterBatchesY], ?_, ?_, ?_⟩
  · rw [hrow, iterBatchTargets_length, hxlen]
  · rw [hrow, iterBatchTargets_getD _ _ _ htx]
    simp
  · rw [hrow, iterBatchTargets_getD _ _ _ htx]
    have hkr : k < ((List.range n).map fun j => (X.getD b []).getD (t + 1 + j) 0).length := by
      simpa using hk
    rw [List.getD_eq_getElem _ _ hkr]
    simp

/-- Witness for claim C1 at the concrete batch recorded in the notebook
(L = 30, n = 4, b = 0, t = 5, k = 2). -/
theorem mtp_target_windowing_witness :
    ((∀ xb ∈ [notebookX], xb.length = 30) ∧ 1 ≤ 4 ∧ 4 < 30 ∧
      0 < ([notebookX] : List (List Nat)).length ∧ 5 < 30 - 4 ∧ 2 < 4) ∧
    ((iterBatchesY [notebookX] 4).length = ([notebookX] : List (List Nat)).length ∧
     ((iterBatchesY [notebookX] 4).getD 0 []).length = 30 - 4 ∧
     (((iterBatchesY [notebookX] 4).getD 0 []).getD 5 []).length = 4 ∧
     (((iterBatchesY [notebookX] 4).getD 0 []).getD 5 []).getD 2 0 =
       (([notebookX] : List (List Nat)).getD 0 []).getD (5 + 1 + 2) 0) :=
  ⟨by decide,
   mtp_target_windowing [notebookX] 30 4 0 5 2 (by decide) (by decide)
     (by decide) (by decide) (by decide) (by decide)⟩

/-! ## Model forward output shape (claim C2) -/

/-- Modelled from the spec: Transformer.forward (model.py is not among
the sources) returns, for input X and target tensor Y, one logit
vector of length vocab_size per target entry, so the output tensor has
exactly the shape of Y extended by one vocabulary dimension.  The
numeric value of each logit is abstracted as a score function of the
whole input batch and the target token; only the shape contract is
specified.  The notebook records output.shape = (1, 26, 4, 32000) for
Y.shape = (1, 26, 4) and vocab_size = 32000. -/
def modelForward (score : List (List Nat) → Nat → Nat → ℚ)
    (X : List (List Nat)) (Y : List (List (List Nat))) (vocabSize : Nat) :
    List (List (List (List ℚ))) :=
  Y.map fun row => row.map fun heads => heads.map fun tok =>
    (List.range vocabSize).map fun v => score X tok v

/-- Claim C2: for every target tensor Y of shape (batch, L - n, n) the
forward pass output modelForward score X Y V has shape
(batch, L - n, n, V): the target shape extended by one vocabulary
dimension, so each target entry has a corresponding logit vector. -/
theorem model_output_shape (score : List (List Nat) → Nat → Nat → ℚ)
    (X : List (List Nat)) (Y : List (List (List Nat))) (B Ln n V : Nat)
    (hB : Y.length = B) (hrow : ∀ r ∈ Y, r.length = Ln)
    (hhead : ∀ r ∈ Y, ∀ q ∈ r, q.length = n) :
    (modelForward score X Y V).length = B ∧
    (∀ r ∈ modelForward score X Y V, r.length = Ln) ∧
    (∀ r ∈ modelForward score X Y V, ∀ q ∈ r, q.length = n) ∧
    (∀ r ∈ modelForward score X Y V, ∀ q ∈ r, ∀ p ∈ q, p.length = V) := by
  refine ⟨by simpa [modelForward] using hB, ?_, ?_, ?_⟩
  · intro r hr
    rw [modelForward, List.mem_map] at hr
    obtain ⟨r0, hr0, rfl⟩ := hr
    simpa using hrow r0 hr0
  · intro r hr q hq
    rw [modelForward, List.mem_map] at hr
    obtain ⟨r0, hr0, rfl⟩ := hr
    rw [List.mem_map] at hq
    obtain ⟨q0, hq0, rfl⟩ := hq
    simpa using hhead r0 hr0 q0 hq0
  · intro r hr q hq p hp
    rw [modelForward, List.mem_map] at hr
    obtain ⟨r0, hr0, rfl⟩ := hr
    rw [List.mem_map] at hq
    obtain ⟨q0, hq0, rfl⟩ := hq
    rw [List.mem_map] at hp
    obtain ⟨t0, ht0, rfl⟩ := hp
    simp

/-- A sample score function for concrete instantiations. -/
def sampleScore (X : List (List Nat)) (tok v : Nat) : ℚ :=
  (X.length : ℚ) + (tok : ℚ) - (v : ℚ)

/-- Witness for claim C2 at the notebook batch: Y of shape (1, 26, 4)
gives output of shape (1, 26, 4, V), instantiated with V = 7. -/
theorem model_output_shape_witness :
    (([notebookY] : List (List (List Nat))).length = 1 ∧
      (∀ r ∈ ([notebookY] : List (List (List Nat))), r.length = 26) ∧
      (∀ r ∈ ([notebookY] : List (List (List Nat))), ∀ q ∈ r, q.length = 4)) ∧
    ((modelForward sampleScore [notebookX] [notebookY] 7).length = 1 ∧
     (∀ r ∈ modelForward sampleScore [notebookX] [notebookY] 7, r.length = 26) ∧
     (∀ r ∈ modelForward sampleScore [notebookX] [notebookY] 7,
        ∀ q ∈ r, q.length = 4) ∧
     (∀ r ∈ modelForward sampleScore [notebookX] [notebookY] 7,
        ∀ q ∈ r, ∀ p ∈ q, p.length = 7)) :=
  ⟨⟨by decide, by decide, by decide⟩,
   model_output_shape sampleScore [notebookX] [notebookY] 1 26 4 7
     (by decide) (by decide) (by decide)⟩

/-! ## Multi-head loss aggregation (claim C3) -/

/-- Modelled from the spec: the loss exposed as raw_model.last_loss by
Transformer.forward (model.py is not among the sources) accumulates
the cross-entropy of the primary next-token head and then adds, for
each auxiliary future-token head, lambda_loss times that head's
cross-entropy. -/
def last_loss (primaryCE : ℚ) (auxCEs : List ℚ) (lambda_loss : ℚ) : ℚ :=
  auxCEs.foldl (fun acc ce => acc + lambda_loss * ce) primaryCE

/-- The default value of the ModelArgs.lambda_loss parameter, as shown
by the notebook's dump of ModelArgs(**model_args).__dict__. -/
def lambda_loss_default : ℚ := 3 / 10

theorem last_loss_foldl (lam : ℚ) :
    ∀ (aux : List ℚ) (p : ℚ),
      aux.foldl (fun acc ce => acc + lam * ce) p = p + lam * aux.sum := by
  intro aux
  induction aux with
  | nil => intro p; simp
  | cons c l ih =>
      intro p
      rw [List.foldl_cons, ih, List.sum_cons]
      ring

/-- Claim C3: raw_model.last_loss is the weighted sum of the primary
next-token head's cross-entropy and the auxiliary future-token heads'
cross-entropies, the auxiliary heads weighted by lambda_loss relative
to the primary head, and the default lambda_loss is 0.3. -/
theorem multi_head_loss_aggregation :
    (∀ (p : ℚ) (aux : List ℚ) (lam : ℚ),
        last_loss p aux lam = p + lam * aux.sum) ∧
    lambda_loss_default = 3 / 10 := by
  refine ⟨?_, rfl⟩
  intro p aux lam
  rw [last_loss, last_loss_foldl]

/-! ## DDP work partitioning (claim C6) -/

/-- tokens_per_iter = gradient_accumulation_steps * ddp_world_size *
batch_size * max_seq_len, exactly as computed in the notebook setup
cell. -/
def tokens_per_iter (gas ws bs msl : Nat) : Nat := gas * ws * bs * msl

/-- Under DDP the notebook executes gradient_accumulation_steps //=
ddp_world_size after asserting divisibility. -/
def ddpAdjustedGas (gas ws : Nat) : Nat := gas / ws

/-- Claim C6: when gradient_accumulation_steps is divisible by the DDP
world size (the asserted precondition), dividing it by the world size
keeps tokens_per_iter equal to the single-process value
(world size 1, unadjusted gradient_accumulation_steps). -/
theorem ddp_tokens_per_iter_invariant (gas ws bs msl : Nat)
    (hdvd : gas % ws = 0) :
    tokens_per_iter (ddpAdjustedGas gas ws) ws bs msl =
      tokens_per_iter gas 1 bs msl := by
  have h : gas / ws * ws = gas := Nat.div_mul_cancel (Nat.dvd_of_mod_eq_zero hdvd)
  simp [tokens_per_iter, ddpAdjustedGas, h]

/-- Witness for claim C6 at the notebook configuration
(gradient_accumulation_steps = 4, batch_size = 1, max_seq_len = 30)
with world size 2. -/
theorem ddp_tokens_per_iter_invariant_witness :
    4 % 2 = 0 ∧
    tokens_per_iter (ddpAdjustedGas 4 2) 2 1 30 = tokens_per_iter 4 1 1 30 :=
  ⟨by decide, ddp_tokens_per_iter_invariant 4 2 1 30 (by decide)⟩

/-! ## Gradient-accumulation micro-step loop (claims C4 and C7)

Embedding of the inner loop

  for micro_step in range(gradient_accumulation_steps):
      if ddp:
          model.require_backward_grad_sync = micro_step == gradient_accumulation_steps - 1
      with ctx:
          logits = model(X, Y)
          loss = raw_model.last_loss
          loss = loss / gradient_accumulation_steps
      X, Y = next(train_batch_iter)
      scaler.scale(loss).backward()

The per-micro-batch raw loss and raw gradient are abstracted as
functions of the micro-step index; backward is modelled through the
linearity of autograd, adding the gradient of the scaled loss
(rawGrad i / gas) to the accumulated gradient.  The GradScaler is the
identity because dtype is bfloat16, so it is enabled only for float16. -/

structure MicroState where
  accGrad : ℚ
  lastScaledLoss : ℚ
  syncFlags : List Bool
  steps : Nat
  deriving Repr, DecidableEq

/-- One micro-step of the gradient-accumulation loop. -/
def microStepBody (gas : Nat) (rawLoss rawGrad : Nat → ℚ) (ddp : Bool)
    (st : MicroState) (i : Nat) : MicroState :=
  { accGrad := st.accGrad + rawGrad i / (gas : ℚ)
    lastScaledLoss := rawLoss i / (gas : ℚ)
    syncFlags := if ddp then st.syncFlags ++ [decide (i = gas - 1)] else st.syncFlags
    steps := st.steps + 1 }

/-- The initial micro-loop state: zero accumulated gradient
(optimizer.zero_grad at the end of the previous iteration), no
micro-steps run yet. -/
def initMicro : MicroState := ⟨0, 0, [], 0⟩

/-- The whole micro-step loop of one optimizer iteration. -/
def runMicroSteps (gas : Nat) (rawLoss rawGrad : Nat → ℚ) (ddp : Bool) :
    MicroState :=
  (List.range gas).foldl (microStepBody gas rawLoss rawGrad ddp) initMicro

/-- The logged loss: lossf = loss.item() * gradient_accumulation_steps. -/
def lossf (st : MicroState) (gas : Nat) : ℚ := st.lastScaledLoss * (gas : ℚ)

theorem runMicro_fold_spec (gas : Nat) (rawLoss rawGrad : Nat → ℚ)
    (ddp : Bool) : ∀ m : Nat,
    (List.range m).foldl (microStepBody gas rawLoss rawGrad ddp) initMicro =
      { accGrad := ((List.range m).map fun i => rawGrad i / (gas : ℚ)).sum
        lastScaledLoss := if m = 0 then 0 else rawLoss (m - 1) / (gas : ℚ)
        syncFlags :=
          if ddp then (List.range m).map fun i => decide (i = gas - 1) else []
        steps := m } := by
  intro m
  induction m with
  | zero => simp [initMicro]
  | succ p ih =>
      rw [List.range_succ, List.foldl_append, ih]
      simp [microStepBody, List.range_succ]
      split <;> rfl

theorem sum_map_div (g : Nat → ℚ) (c : ℚ) (l : List Nat) :
    (l.map fun i => g i / c).sum = (l.map g).sum / c := by
  induction l with
  | nil => simp
  | cons a l ih => simp [ih, add_div]

/-- Claim C4: with gradient_accumulation_steps = gas > 0, the
micro-step loop of one optimizer iteration runs exactly gas
forward/backward micro-steps, each backward receives the model loss
divided by gas so the accumulated gradient is the mean of the
per-micro-batch gradients, and the logged loss lossf = loss.item() *
gas equals the unscaled loss of the last micro-batch. -/
theorem gradient_accumulation (gas : Nat) (rawLoss rawGrad : Nat → ℚ)
    (ddp : Bool) (hgas : 0 < gas) :
    (runMicroSteps gas rawLoss rawGrad ddp).steps = gas ∧
    (runMicroSteps gas rawLoss rawGrad ddp).accGrad =
      ((List.range gas).map rawGrad).sum / (gas : ℚ) ∧
    lossf (runMicroSteps gas rawLoss rawGrad ddp) gas = rawLoss (gas - 1) := by
  have hq : (gas : ℚ) ≠ 0 := Nat.cast_ne_zero.mpr (Nat.pos_iff_ne_zero.mp hgas)
  rw [lossf, runMicroSteps, runMicro_fold_spec]
  refine ⟨rfl, sum_map_div rawGrad (gas : ℚ) (List.range gas), ?_⟩
  have hne : gas ≠ 0 := Nat.pos_iff_ne_zero.mp hgas
  simp only [if_neg hne]
  field_simp

/-- Witness for claim C4 at gas = 4 (the notebook value) with sample
loss and gradient streams. -/
theorem gradient_accumulation_witness :
    0 < 4 ∧
    ((runMicroSteps 4 (fun i => (i : ℚ) + 1) (fun i => 2 * (i : ℚ)) false).steps = 4 ∧
     (runMicroSteps 4 (fun i => (i : ℚ) + 1) (fun i => 2 * (i : ℚ)) false).accGrad =
       ((List.range 4).map fun i => 2 * (i : ℚ)).sum / (4 : ℚ) ∧
     lossf (runMicroSteps 4 (fun i => (i : ℚ) + 1) (fun i => 2 * (i : ℚ)) false) 4 =
       (4 : ℚ) - 1 + 1) := by
  refine ⟨by decide, ?_⟩
  have h := gradient_accumulation 4 (fun i => (i : ℚ) + 1)
    (fun i => 2 * (i : ℚ)) false (by decide)
  refine ⟨h.1, h.2.1, ?_⟩
  rw [h.2.2]
  norm_num

/-- Claim C7: under DDP the require_backward_grad_sync flag is set on
every micro-step, and its value during micro-step i is true exactly
when i is the final micro-step (i = gas - 1), so gradients are never
synchronized before the last micro-step of an iteration. -/
theorem ddp_grad_sync_only_last (gas i : Nat) (rawLoss rawGrad : Nat → ℚ)
    (hi : i < gas) :
    (runMicroSteps gas rawLoss rawGrad true).syncFlags.length = gas ∧
    ((runMicroSteps gas rawLoss rawGrad true).syncFlags.getD i false = true ↔
      i = gas - 1) := by
  have hflags : (runMicroSteps gas rawLoss rawGrad true).syncFlags =
      (List.range gas).map fun j => decide (j = gas - 1) := by
    rw [runMicroSteps, runMicro_fold_spec]
    rfl
  constructor
  · rw [hflags]; simp
  · have hlen : i < ((List.range gas).map fun j => decide (j = gas - 1)).length := by
      simpa using hi
    rw [hflags, List.getD_eq_getElem _ _ hlen]
    simp

/-- Witness for claim C7 at gas = 4, checking the final micro-step
i = 3. -/
theorem ddp_grad_sync_only_last_witness :
    3 < 4 ∧
    ((runMicroSteps 4 (fun _ => (5 : ℚ)) (fun _ => (7 : ℚ)) true).syncFlags.length = 4 ∧
     ((runMicroSteps 4 (fun _ => (5 : ℚ)) (fun _ => (7 : ℚ)) true).syncFlags.getD 3 false = true ↔
       3 = 4 - 1)) :=
  ⟨by decide,
   ddp_grad_sync_only_last 4 3 (fun _ => (5 : ℚ)) (fun _ => (7 : ℚ)) (by decide)⟩

/-! ## The training loop (claims C5, C8, C9, C10)

Embedding of the outer loop

  while True:
      if iter_num % eval_interval == 0 and master_process:
          losses = estimate_loss()
          if losses["val"] < best_val_loss or always_save_checkpoint:
              best_val_loss = losses["val"]
              if iter_num > 0:
                  torch.save(checkpoint, ...ckpt.pt)
                  model_export(raw_model, ...model.bin, version=0)
      if iter_num == 0 and eval_only:
          break
      for micro_step in range(gradient_accumulation_steps): ...
      scaler.step(optimizer); ...
      iter_num += 1
      if iter_num > max_iters:
          break

The measured validation loss at an evaluation of iteration i is an
environment input val_loss_at i; the effect of one optimizer update on
the parameters and the optimizer state is abstracted by the step
functions param_step and opt_step.  The state records the iterations
at which an evaluation ran and at which a checkpoint plus binary
export was written. -/

structure TrainConfig where
  eval_interval : Nat
  eval_only : Bool
  always_save_checkpoint : Bool
  master_process : Bool
  max_iters : Nat
  val_loss_at : Nat → ℚ
  param_step : Int → Int
  opt_step : Int → Int

structure TrainState where
  iter_num : Nat
  best_val_loss : ℚ
  params : Int
  opt_state : Int
  updates : Nat
  evals : List Nat
  checkpoints : List Nat

/-- The initial best_val_loss = 1e9 of the notebook. -/
def best_val_loss_init : ℚ := 10 ^ 9

/-- The evaluation/checkpoint branch at the top of the loop body.
best_val_loss is overwritten before the iter_num > 0 test, exactly as
in the code, so it is updated even at iteration 0 although no
checkpoint is written there. -/
def evalBranch (cfg : TrainConfig) (s : TrainState) : TrainState :=
  if s.iter_num % cfg.eval_interval == 0 && cfg.master_process then
    let v := cfg.val_loss_at s.iter_num
    let s1 : TrainState := { s with evals := s.evals ++ [s.iter_num] }
    if decide (v < s.best_val_loss) || cfg.always_save_checkpoint then
      let s2 : TrainState := { s1 with best_val_loss := v }
      if 0 < s.iter_num then
        { s2 with checkpoints := s2.checkpoints ++ [s.iter_num] }
      else s2
    else s1
  else s

/-- One optimizer update: scaler.step(optimizer) after the micro-step
loop, advancing the parameters and the optimizer state. -/
def optimizerUpdate (cfg : TrainConfig) (s : TrainState) : TrainState :=
  { s with
    params := cfg.param_step s.params
    opt_state := cfg.opt_step s.opt_state
    updates := s.updates + 1 }

/-- The tail of the loop body after the break test: the micro-step
loop plus optimizer step, then iter_num += 1. -/
def stepState (cfg : TrainConfig) (s1 : TrainState) : TrainState :=
  { optimizerUpdate cfg s1 with iter_num := s1.iter_num + 1 }

/-- The training loop, fuel-indexed: none marks fuel exhaustion, so
run cfg fuel s = some t states that the loop terminates within fuel
passes with final state t. -/
def run (cfg : TrainConfig) : Nat → TrainState → Option TrainState
  | 0, _ => none
  | fuel + 1, s =>
    let s1 := evalBranch cfg s
    if s1.iter_num == 0 && cfg.eval_only then some s1
    else
      let s3 := stepState cfg s1
      if s3.iter_num > cfg.max_iters then some s3
      else run cfg fuel s3

theorem stepState_iter_num (cfg : TrainConfig) (s : TrainState) :
    (stepState cfg s).iter_num = s.iter_num + 1 := rfl

theorem stepState_updates (cfg : TrainConfig) (s : TrainState) :
    (stepState cfg s).updates = s.updates + 1 := rfl

theorem evalBranch_frame (cfg : TrainConfig) (s : TrainState) :
    (evalBranch cfg s).iter_num = s.iter_num ∧
    (evalBranch cfg s).params = s.params ∧
    (evalBranch cfg s).opt_state = s.opt_state ∧
    (evalBranch cfg s).updates = s.updates := by
  simp only [evalBranch]
  split
  · split
    · split
      · exact ⟨rfl, rfl, rfl, rfl⟩
      · exact ⟨rfl, rfl, rfl, rfl⟩
    · exact ⟨rfl, rfl, rfl, rfl⟩
  · exact ⟨rfl, rfl, rfl, rfl⟩

@[simp] theorem evalBranch_iter_num (cfg : TrainConfig) (s : TrainState) :
    (evalBranch cfg s).iter_num = s.iter_num := (evalBranch_frame cfg s).1

@[simp] theorem evalBranch_params (cfg : TrainConfig) (s : TrainState) :
    (evalBranch cfg s).params = s.params := (evalBranch_frame cfg s).2.1

@[simp] theorem evalBranch_opt_state (cfg : TrainConfig) (s : TrainState) :
    (evalBranch cfg s).opt_state = s.opt_state := (evalBranch_frame cfg s).2.2.1

@[simp] theorem evalBranch_updates (cfg : TrainConfig) (s : TrainState) :
    (evalBranch cfg s).updates = s.updates := (evalBranch_frame cfg s).2.2.2

theorem evalBranch_evals (cfg : TrainConfig) (s : TrainState) :
    (evalBranch cfg s).evals =
      if s.iter_num % cfg.eval_interval == 0 && cfg.master_process then
        s.evals ++ [s.iter_num]
      else s.evals := by
  by_cases h1 : (s.iter_num % cfg.eval_interval == 0 && cfg.master_process) = true
  · by_cases h2 : cfg.val_loss_at s.iter_num < s.best_val_loss
    · by_cases h3 : 0 < s.iter_num
      · simp [evalBranch, h1, h2, h3]
      · simp [evalBranch, h1, h2, h3]
    · by_cases h4 : cfg.always_save_checkpoint = true
      · by_cases h3 : 0 < s.iter_num
        · simp [evalBranch, h1, h2, h3, h4]
        · simp [evalBranch, h1, h2, h3, h4]
      · simp [evalBranch, h1, h2, h4]
  · simp [evalBranch, h1]

theorem evalBranch_checkpoints (cfg : TrainConfig) (s : TrainState) :
    (evalBranch cfg s).checkpoints =
      if (s.iter_num % cfg.eval_interval == 0 && cfg.master_process)
          && (decide (cfg.val_loss_at s.iter_num < s.best_val_loss)
              || cfg.always_save_checkpoint)
          && decide (0 < s.iter_num) then
        s.checkpoints ++ [s.iter_num]
      else s.checkpoints := by
  by_cases h1 : (s.iter_num % cfg.eval_interval == 0 && cfg.master_process) = true
  · by_cases h2 : cfg.val_loss_at s.iter_num < s.best_val_loss
    · by_cases h3 : 0 < s.iter_num
      · simp [evalBranch, h1, h2, h3]
      · simp [evalBranch, h1, h2, h3]
    · by_cases h4 : cfg.always_save_checkpoint = true
      · by_cases h3 : 0 < s.iter_num
        · simp [evalBranch, h1, h2, h3, h4]
        · simp [evalBranch, h1, h2, h3, h4]
      · simp [evalBranch, h1, h2, h4]
  · simp [evalBranch, h1]

theorem evalBranch_best (cfg : TrainConfig) (s : TrainState) :
    (evalBranch cfg s).best_val_loss =
      if (s.iter_num % cfg.eval_interval == 0 && cfg.master_process)
          && (decide (cfg.val_loss_at s.iter_num < s.best_val_loss)
              || cfg.always_save_checkpoint) then
        cfg.val_loss_at s.iter_num
      else s.best_val_loss := by
  by_cases h1 : (s.iter_num % cfg.eval_interval == 0 && cfg.master_process) = true
  · by_cases h2 : cfg.val_loss_at s.iter_num < s.best_val_loss
    · by_cases h3 : 0 < s.iter_num
      · simp [evalBranch, h1, h2, h3]
      · simp [evalBranch, h1, h2, h3]
    · by_cases h4 : cfg.always_save_checkpoint = true
      · by_cases h3 : 0 < s.iter_num
        · simp [evalBranch, h1, h2, h3, h4]
        · simp [evalBranch, h1, h2, h3, h4]
      · simp [evalBranch, h1, h2, h4]
  · simp [evalBranch, h1]

theorem cond_append_iff (c : Bool) (l : List Nat) (x : Nat) :
    l.length < (if c = true then l ++ [x] else l).length ↔ c = true := by
  cases c <;> simp

/-- An evaluation (estimate_loss) ran during this pass of the loop body. -/
def evalRan (cfg : TrainConfig) (s : TrainState) : Prop :=
  s.evals.length < (evalBranch cfg s).evals.length

/-- A checkpoint (ckpt.pt) together with the binary export (model.bin)
was written during this pass of the loop body. -/
def checkpointWritten (cfg : TrainConfig) (s : TrainState) : Prop :=
  s.checkpoints.length < (evalBranch cfg s).checkpoints.length

/-- Claim C5: in any pass of the loop body, an evaluation runs exactly
when iter_num % eval_interval == 0 on the master process, and the
checkpoint plus binary export is written exactly when additionally the
measured validation loss is strictly below best_val_loss or
always_save_checkpoint holds, and iter_num > 0.  In particular export
never happens outside an evaluation iteration and never at iteration
0. -/
theorem checkpoint_export_policy (cfg : TrainConfig) (s : TrainState) :
    (evalRan cfg s ↔
      s.iter_num % cfg.eval_interval = 0 ∧ cfg.master_process = true) ∧
    (checkpointWritten cfg s ↔
      s.iter_num % cfg.eval_interval = 0 ∧ cfg.master_process = true ∧
      (cfg.val_loss_at s.iter_num < s.best_val_loss ∨
        cfg.always_save_checkpoint = true) ∧
      0 < s.iter_num) := by
  constructor
  · rw [evalRan, evalBranch_evals, cond_append_iff]
    simp [Bool.and_eq_true, beq_iff_eq]
  · rw [checkpointWritten, evalBranch_checkpoints, cond_append_iff]
    simp only [Bool.and_eq_true, Bool.or_eq_true, beq_iff_eq,
      decide_eq_true_eq]
    tauto

/-- A sample configuration with always_save_checkpoint = true whose
measured validation loss is worse than the current best. -/
def cfgAlways : TrainConfig :=
  { eval_interval := 1
    eval_only := false
    always_save_checkpoint := true
    master_process := true
    max_iters := 0
    val_loss_at := fun _ => 2
    param_step := fun p => p
    opt_step := fun o => o }

/-- A sample state with a best validation loss better than the next
measurement. -/
def sAlways : TrainState :=
  { iter_num := 1
    best_val_loss := 1
    params := 0
    opt_state := 0
    updates := 0
    evals := []
    checkpoints := [] }

/-- Claim C8: with always_save_checkpoint = false, best_val_loss never
increases, and after an evaluation it equals the minimum of its
previous value and the newly measured validation loss; with
always_save_checkpoint = true the branch overwrites best_val_loss with
the measured loss at every evaluation, and this can strictly increase
it, so the monotonicity invariant fails. -/
theorem best_val_loss_monotonicity :
    (∀ (cfg : TrainConfig) (s : TrainState),
      cfg.always_save_checkpoint = false →
      (evalBranch cfg s).best_val_loss ≤ s.best_val_loss ∧
      (s.iter_num % cfg.eval_interval = 0 → cfg.master_process = true →
        (evalBranch cfg s).best_val_loss =
          min s.best_val_loss (cfg.val_loss_at s.iter_num))) ∧
    (∀ (cfg : TrainConfig) (s : TrainState),
      cfg.always_save_checkpoint = true →
      s.iter_num % cfg.eval_interval = 0 → cfg.master_process = true →
      (evalBranch cfg s).best_val_loss = cfg.val_loss_at s.iter_num) ∧
    (cfgAlways.always_save_checkpoint = true ∧
      sAlways.best_val_loss < (evalBranch cfgAlways sAlways).best_val_loss) := by
  refine ⟨?_, ?_, rfl, by decide⟩
  · intro cfg s hA
    rw [evalBranch_best]
    constructor
    · by_cases h2 : cfg.val_loss_at s.iter_num < s.best_val_loss
      · split
        · exact le_of_lt h2
        · exact le_refl _
      · simp [hA, h2]
    · intro hmod hmaster
      by_cases h2 : cfg.val_loss_at s.iter_num < s.best_val_loss
      · rw [if_pos (by simp [hmod, hmaster, h2]), min_eq_right (le_of_lt h2)]
      · rw [if_neg (by simp [hA, hmod, hmaster, h2]),
          min_eq_left (le_of_not_lt h2)]
  · intro cfg s hA hmod hmaster
    rw [evalBranch_best, if_pos (by simp [hA, hmod, hmaster])]

/-- Witness for claim C8 at a concrete configuration: with
always_save_checkpoint = false an evaluation at iteration 0 with
measured loss 2 against best 1 keeps best_val_loss = min 1 2. -/
theorem best_val_loss_monotonicity_witness :
    ({ cfgAlways with always_save_checkpoint := false }.always_save_checkpoint
        = false ∧
      sAlways.iter_num %
        { cfgAlways with always_save_checkpoint := false }.eval_interval = 0 ∧
      { cfgAlways with always_save_checkpoint := false }.master_process
        = true) ∧
    (evalBranch { cfgAlways with always_save_checkpoint := false }
        sAlways).best_val_loss =
      min sAlways.best_val_loss
        ({ cfgAlways with always_save_checkpoint := false }.val_loss_at
          sAlways.iter_num) :=
  ⟨⟨rfl, by decide, rfl⟩,
   (best_val_loss_monotonicity.1
      { cfgAlways with always_save_checkpoint := false } sAlways rfl).2
     (by decide) rfl⟩

theorem run_count (cfg : TrainConfig) (hEO : cfg.eval_only = false) :
    ∀ (fuel : Nat) (s : TrainState),
      s.iter_num ≤ cfg.max_iters →
      cfg.max_iters + 1 - s.iter_num ≤ fuel →
      ∃ t, run cfg fuel s = some t ∧
        t.updates = s.updates + (cfg.max_iters + 1 - s.iter_num) ∧
        t.iter_num = cfg.max_iters + 1 := by
  intro fuel
  induction fuel with
  | zero => intro s h1 h2; omega
  | succ f ih =>
      intro s h1 h2
      rw [run]
      simp only [hEO, Bool.and_false, Bool.false_eq_true, if_false]
      by_cases hlast : (stepState cfg (evalBranch cfg s)).iter_num > cfg.max_iters
      · rw [if_pos hlast]
        rw [stepState_iter_num, evalBranch_iter_num] at hlast
        refine ⟨_, rfl, ?_, ?_⟩
        · rw [stepState_updates, evalBranch_updates]
          omega
        · rw [stepState_iter_num, evalBranch_iter_num]
          omega
      · rw [if_neg hlast]
        rw [stepState_iter_num, evalBranch_iter_num] at hlast
        obtain ⟨t, ht, hupd, hit⟩ := ih (stepState cfg (evalBranch cfg s))
          (by rw [stepState_iter_num, evalBranch_iter_num]; omega)
          (by rw [stepState_iter_num, evalBranch_iter_num]; omega)
        refine ⟨t, ht, ?_, hit⟩
        rw [hupd, stepState_updates, evalBranch_updates, stepState_iter_num,
          evalBranch_iter_num]
        omega

/-- Claim C9: with eval_only = false and initial iter_num = 0, the
training loop terminates, within max_iters + 1 passes, and performs
exactly max_iters + 1 optimizer updates (iterations 0, 1, ...,
max_iters), exiting once iter_num exceeds max_iters. -/
theorem training_loop_termination (cfg : TrainConfig) (s : TrainState)
    (hEO : cfg.eval_only = false) (h0 : s.iter_num = 0) (hu : s.updates = 0) :
    ∃ t, run cfg (cfg.max_iters + 1) s = some t ∧
      t.updates = cfg.max_iters + 1 ∧ t.iter_num = cfg.max_iters + 1 := by
  obtain ⟨t, ht, hupd, hit⟩ :=
    run_count cfg hEO (cfg.max_iters + 1) s (by omega) (by omega)
  exact ⟨t, ht, by omega, hit⟩

/-- A sample configuration for concrete loop executions. -/
def cfgSample : TrainConfig :=
  { eval_interval := 2
    eval_only := false
    always_save_checkpoint := false
    master_process := true
    max_iters := 3
    val_loss_at := fun _ => 5
    param_step := fun p => p + 1
    opt_step := fun o => o + 1 }

/-- The state at the start of a fresh run: iter_num = 0 and
best_val_loss = 1e9, as initialized in the notebook. -/
def sFresh : TrainState :=
  { iter_num := 0
    best_val_loss := best_val_loss_init
    params := 0
    opt_state := 0
    updates := 0
    evals := []
    checkpoints := [] }

/-- Witness for claim C9 at cfgSample (max_iters = 3): the loop
terminates and performs exactly 4 optimizer updates. -/
theorem training_loop_termination_witness :
    (cfgSample.eval_only = false ∧ sFresh.iter_num = 0 ∧ sFresh.updates = 0) ∧
    (∃ t, run cfgSample (cfgSample.max_iters + 1) sFresh = some t ∧
      t.updates = cfgSample.max_iters + 1 ∧
      t.iter_num = cfgSample.max_iters + 1) :=
  ⟨⟨rfl, rfl, rfl⟩, training_loop_termination cfgSample sFresh rfl rfl rfl⟩

theorem run_eval_only_irrelevant (cfg : TrainConfig) :
    ∀ (fuel : Nat) (s : TrainState), 0 < s.iter_num →
      run cfg fuel s = run { cfg with eval_only := false } fuel s := by
  intro fuel
  induction fuel with
  | zero => intro s _; rfl
  | succ f ih =>
      intro s hpos
      rw [run, run]
      have hsame : evalBranch { cfg with eval_only := false } s
          = evalBranch cfg s := rfl
      have hstep : stepState { cfg with eval_only := false } (evalBranch cfg s)
          = stepState cfg (evalBranch cfg s) := rfl
      have hmax : ({ cfg with eval_only := false } : TrainConfig).max_iters
          = cfg.max_iters := rfl
      have hbeq : ((evalBranch cfg s).iter_num == 0) = false := by
        simp only [evalBranch_iter_num, beq_eq_false_iff_ne, ne_eq]
        omega
      simp only [hsame, hstep, hmax, hbeq, Bool.false_and, Bool.false_eq_true,
        if_false]
      by_cases hstop :
          (stepState cfg (evalBranch cfg s)).iter_num > cfg.max_iters
      · rw [if_pos hstop, if_pos hstop]
      · rw [if_neg hstop, if_neg hstop]
        exact ih _ (by rw [stepState_iter_num]; omega)

/-- Claim C10: if eval_only is true and the initial iter_num is 0, the
loop exits right after the first evaluation with no forward/backward
pass and no optimizer update, leaving the parameters and the optimizer
state unchanged; but with initial iter_num > 0 the eval_only flag has
no effect at all and the run is identical to one with eval_only =
false, proceeding until the max_iters condition. -/
theorem eval_only_edge_case (cfg : TrainConfig) (s : TrainState) (fuel : Nat) :
    (cfg.eval_only = true → s.iter_num = 0 → 0 < fuel →
      run cfg fuel s = some (evalBranch cfg s) ∧
      (evalBranch cfg s).updates = s.updates ∧
      (evalBranch cfg s).params = s.params ∧
      (evalBranch cfg s).opt_state = s.opt_state) ∧
    (0 < s.iter_num →
      run cfg fuel s = run { cfg with eval_only := false } fuel s) := by
  constructor
  · intro hEO h0 hfuel
    obtain ⟨f, rfl⟩ : ∃ f, fuel = f + 1 := ⟨fuel - 1, by omega⟩
    rw [run]
    have hbeq : ((evalBranch cfg s).iter_num == 0 && cfg.eval_only) = true := by
      simp [hEO, h0]
    rw [if_pos hbeq]
    exact ⟨rfl, evalBranch_updates cfg s, evalBranch_params cfg s,
      evalBranch_opt_state cfg s⟩
  · exact run_eval_only_irrelevant cfg fuel s

/-- A configuration identical to cfgSample but with eval_only = true. -/
def cfgEvalOnly : TrainConfig := { cfgSample with eval_only := true }

/-- A state mid-run, at iteration 1. -/
def sMid : TrainState := { sFresh with iter_num := 1 }

/-- Witness for claim C10: at iter_num = 0 with eval_only = true the
loop stops after the evaluation branch with parameters, optimizer
state and update count untouched, and at iter_num = 1 the run with
eval_only = true coincides with the run with eval_only = false. -/
theorem eval_only_edge_case_witness :
    ((cfgEvalOnly.eval_only = true ∧ sFresh.iter_num = 0 ∧ 0 < 5) ∧
      (run cfgEvalOnly 5 sFresh = some (evalBranch cfgEvalOnly sFresh) ∧
       (evalBranch cfgEvalOnly sFresh).updates = sFresh.updates ∧
       (evalBranch cfgEvalOnly sFresh).params = sFresh.params ∧
       (evalBranch cfgEvalOnly sFresh).opt_state = sFresh.opt_state)) ∧
    (0 < sMid.iter_num ∧
      run cfgEvalOnly 5 sMid =
        run { cfgEvalOnly with eval_only := false } 5 sMid) :=
  ⟨⟨⟨rfl, rfl, by decide⟩,
    (eval_only_edge_case cfgEvalOnly sFresh 5).1 rfl rfl (by decide)⟩,
   ⟨by decide, (eval_only_edge_case cfgEvalOnly sMid 5).2 (by decide)⟩⟩

end MTP
